import Mathlib

/-!
Shallow embedding of the debugWIRE transport and command engine of
`src/software/examples/debugWIRE/src/dwire/DwPort.c`.

The C file drives an AVR target over a USB adapter.  All USB traffic goes
through `usb_control_msg`; we model the observable effect of each OUT
transfer as a `Transport` record appended to a trace, and inbound data as a
byte stream (`inbound`) consumed by reads.  Globals of the C file
(`OutBufBytes`/`OutBufLength`, the register shadow `R`, `PC`, `BP`,
`TimerEnable`) become fields of `DwState`.  Device characteristics
(`DWDRreg()`, `DWDRaddr()`, `FlashSize()`) are passed as parameters.
Bytes are `Nat`s; C `int` values that can go negative are `Int`.
-/

namespace DwPort

/-- One `usb_control_msg` OUT transfer to the adapter: the `wValue` mode
(4 = send, 0x14 = send+read, 0x24 = send+capture pulse widths,
0x0C = send+wait, 2 = set timing) and the payload bytes. -/
structure Transport where
  mode : Nat
  data : List Nat
deriving Repr, DecidableEq

/-- The mutable session state of DwPort.c: outbound coalescing buffer,
pending inbound bytes held by the adapter, shadow register file `R`,
byte-addressed `PC`, breakpoint `BP` (negative = none), `TimerEnable`,
and the trace of USB OUT transfers performed so far. -/
structure DwState where
  outBuf : List Nat
  inbound : List Nat
  R : Nat → Nat
  PC : Int
  BP : Int
  TimerEnable : Bool
  trace : List Transport

/-- The state at program start: `OutBufLength = 0`, nothing inbound,
registers zero, no breakpoint. -/
def initState : DwState :=
  { outBuf := [], inbound := [], R := fun _ => 0, PC := 0, BP := -1,
    TimerEnable := false, trace := [] }

/-- `dwUSBSendBytes(state, out, outlen)`: one USB OUT transfer of `out`
with mode `state` (retries and the settling delay are timing only). -/
def dwUSBSendBytes (mode : Nat) (out : List Nat) (s : DwState) : DwState :=
  { s with trace := s.trace ++ [⟨mode, out⟩] }

/-- `dwBufferFlush(state)`: if the buffer is non-empty, send it with the
given mode and reset the length to 0; otherwise do nothing. -/
def dwBufferFlush (mode : Nat) (s : DwState) : DwState :=
  if s.outBuf = [] then s
  else { dwUSBSendBytes mode s.outBuf s with outBuf := [] }

/-- `DwSend(out, outlen)`: append to the buffer; while the total exceeds
the 128-byte capacity, top the buffer up to 128 bytes, send it with
mode 4 and continue with the remainder.  The remainder (between 1 and
128 bytes) stays buffered. -/
def DwSend (out : List Nat) (s : DwState) : DwState :=
  if 128 < s.outBuf.length + out.length then
    let lenToCopy := 128 - s.outBuf.length
    DwSend (out.drop lenToCopy)
      { dwUSBSendBytes 0x04 (s.outBuf ++ out.take lenToCopy) s with outBuf := [] }
  else
    { s with outBuf := s.outBuf ++ out }
termination_by s.outBuf.length + out.length
decreasing_by
  simp only [List.length_drop, List.length_nil]
  omega

/-- `DwFlush()`. -/
def DwFlush (s : DwState) : DwState := dwBufferFlush 0x14 s

/-- `DwReceive(in, inlen)`: flush the buffer with mode 0x14 (send bytes
and read response), then read back up to `inlen` inbound bytes.  Returns
the status (number of bytes obtained), the bytes, and the new state. -/
def DwReceive (inlen : Nat) (s : DwState) : Nat × List Nat × DwState :=
  let s1 := dwBufferFlush 0x14 s
  let k := min inlen s1.inbound.length
  (k, s1.inbound.take k, { s1 with inbound := s1.inbound.drop k })

/-- Overlay received bytes on a zero-initialized local buffer: positions
not delivered keep their initial value (`DwReceive` writes only the
first `status` bytes of the caller's buffer). -/
def overlay (init got : List Nat) : List Nat :=
  got ++ init.drop got.length

/-- `DwReadByte()`: zero-initialized 1-byte buffer, receive 1, return the
buffer contents (the status is ignored). -/
def DwReadByte (s : DwState) : Nat × DwState :=
  let r := DwReceive 1 s
  ((overlay [0] r.2.1).getD 0 0, r.2.2)

/-- `DwReadWord()`: zero-initialized 2-byte buffer, receive 2, return
`(buf[0] << 8) | buf[1]` (the status is ignored). -/
def DwReadWord (s : DwState) : Nat × DwState :=
  let r := DwReceive 2 s
  let buf := overlay [0, 0] r.2.1
  (((buf.getD 0 0) <<< 8) ||| buf.getD 1 0, r.2.2)

/-- `DwSync()`: flush with mode 0x24 (send bytes and capture the pulse
widths of the following auto-baud frame).  The subsequent
`SetDwireBaud` call reads timings into its own local array and is
modelled separately (`SetDwireBaud` below); it does not touch `OutBuf`. -/
def DwSync (s : DwState) : DwState := dwBufferFlush 0x24 s

/-- `DwWait()`: flush with mode 0x0C (send bytes and wait for a
debugWIRE line state change). -/
def DwWait (s : DwState) : DwState := dwBufferFlush 0x0C s

/-- `hi(w) = (w>>8)&0xff`. -/
def hi (w : Nat) : Nat := (w >>> 8) &&& 0xff

/-- `lo(w) = w&0xff`. -/
def lo (w : Nat) : Nat := w &&& 0xff

/-- `DwSetPC(pc)`: wire bytes `D0 hi(pc)|0x10 lo(pc)`. -/
def DwSetPC (pc : Nat) (s : DwState) : DwState :=
  DwSend [0xD0, hi pc ||| 0x10, lo pc] s

/-- `DwSetBP(bp)`: wire bytes `D1 hi(bp)|0x10 lo(bp)`. -/
def DwSetBP (bp : Nat) (s : DwState) : DwState :=
  DwSend [0xD1, hi bp ||| 0x10, lo bp] s

/-- `DwInst(inst)`: wire bytes `D2 hi(inst) lo(inst) 23`. -/
def DwInst (inst : Nat) (s : DwState) : DwState :=
  DwSend [0xD2, hi inst, lo inst, 0x23] s

/-- Opcode built by `DwIn`: `0xB000 | ((ioreg<<5)&0x600) | ((reg<<4)&0x01F0) | (ioreg&0x000F)`. -/
def inOpcode (reg ioreg : Nat) : Nat :=
  0xB000 ||| ((ioreg <<< 5) &&& 0x600) ||| ((reg <<< 4) &&& 0x01F0) ||| (ioreg &&& 0x000F)

/-- Opcode built by `DwOut`: `0xB800 | ((ioreg<<5)&0x600) | ((reg<<4)&0x01F0) | (ioreg&0x000F)`. -/
def outOpcode (reg ioreg : Nat) : Nat :=
  0xB800 ||| ((ioreg <<< 5) &&& 0x600) ||| ((reg <<< 4) &&& 0x01F0) ||| (ioreg &&& 0x000F)

/-- `DwIn(reg, ioreg)`. -/
def DwIn (reg ioreg : Nat) (s : DwState) : DwState := DwInst (inOpcode reg ioreg) s

/-- `DwOut(ioreg, reg)`. -/
def DwOut (ioreg reg : Nat) (s : DwState) : DwState := DwInst (outOpcode reg ioreg) s

/-- `DwSetReg(reg, val)`: `DwIn(reg, DWDRreg()); DwSend(val)`.
`dwdrReg` stands for the device characteristic `DWDRreg()`. -/
def DwSetReg (dwdrReg reg val : Nat) (s : DwState) : DwState :=
  DwSend [val] (DwIn reg dwdrReg s)

/-- The `count <= 3` loop of `DwSetRegs`: one `DwSetReg` per register. -/
def setRegsLoop (dwdrReg first : Nat) (regs : List Nat) (s : DwState) : DwState :=
  match regs with
  | [] => s
  | v :: rest => setRegsLoop dwdrReg (first + 1) rest (DwSetReg dwdrReg first v s)

/-- `DwSetRegs(first, regs, count)`: single-byte writes for `count <= 3`,
otherwise the bulk register write `SetPC(first); SetBP(first+count);
66 C2 05 20;` followed by the payload. -/
def DwSetRegs (dwdrReg first : Nat) (regs : List Nat) (s : DwState) : DwState :=
  if regs.length ≤ 3 then setRegsLoop dwdrReg first regs s
  else
    DwSend regs
      (DwSend [0x66, 0xC2, 0x05, 0x20]
        (DwSetBP (first + regs.length) (DwSetPC first s)))

/-- `DwSetZ(z)`: `DwSetRegs(30, (u8*)&z, 2)` — the two bytes of `z`
little-endian (the host is little-endian). -/
def DwSetZ (dwdrReg z : Nat) (s : DwState) : DwState :=
  DwSetRegs dwdrReg 30 [z &&& 0xff, (z >>> 8) &&& 0xff] s

/-- `DwGetRegs(first, regs, count)`: `count == 1` uses `DwOut(DWDRreg(),
first)`; otherwise `SetPC(first); SetBP(first+count); 66 C2 01 20`.
Then receive `count` bytes.  Returns the bytes actually received (the
caller's buffer positions beyond them keep their old contents). -/
def DwGetRegs (dwdrReg first count : Nat) (s : DwState) : List Nat × DwState :=
  let s1 := if count = 1 then DwOut dwdrReg first s
            else DwSend [0x66, 0xC2, 0x01, 0x20]
                   (DwSetBP (first + count) (DwSetPC first s))
  let r := DwReceive count s1
  (r.2.1, r.2.2)

/-- `DwUnsafeReadAddr(addr, len, buf)`: `SetZ(addr); SetPC(0);
SetBP(2*len); 66 C2 00 20;` then receive `len` bytes.  `addr` is cast to
`u16` for `SetZ`, `2*len` to `u16` for `SetBP` (two's complement, i.e.
`emod 2^16`).  Returns the bytes received and the new state. -/
def DwUnsafeReadAddr (dwdrReg : Nat) (addr len : Int) (s : DwState) :
    List Nat × DwState :=
  let s1 := DwSetZ dwdrReg (addr.emod 65536).toNat s
  let s2 := DwSetPC 0 s1
  let s3 := DwSetBP ((2 * len).emod 65536).toNat s2
  let s4 := DwSend [0x66, 0xC2, 0x00, 0x20] s3
  let r := DwReceive len.toNat s4
  (r.2.1, r.2.2)

/-- The cached-register loop of `DwReadAddr`:
`while (addr >= 28 && addr <= 31 && len > 0) {*buf = R[addr]; addr++; len--;}`.
Returns the final `addr`, final `len` and the bytes produced. -/
def readCache (R : Nat → Nat) (addr len : Int) : Int × Int × List Nat :=
  if 28 ≤ addr ∧ addr ≤ 31 ∧ 0 < len then
    let r := readCache R (addr + 1) (len - 1)
    (r.1, r.2.1, R addr.toNat :: r.2.2)
  else (addr, len, [])
termination_by (32 - addr).toNat
decreasing_by omega

/-- The trailing loop of `DwReadAddr`: `while (len > 128)` read 128-byte
chunks, then one final chunk of the remaining `len` if positive.
Returns the `(addr, len)` of each `DwUnsafeReadAddr` call made, the
bytes produced, and the new state. -/
def readChunks (dwdrReg : Nat) (addr len : Int) (s : DwState) :
    List (Int × Int) × List Nat × DwState :=
  if 128 < len then
    let r := DwUnsafeReadAddr dwdrReg addr 128 s
    let rest := readChunks dwdrReg (addr + 128) (len - 128) r.2
    ((addr, 128) :: rest.1, r.1 ++ rest.2.1, rest.2.2)
  else if 0 < len then
    let r := DwUnsafeReadAddr dwdrReg addr len s
    ([(addr, len)], r.1, r.2)
  else ([], [], s)
termination_by len.toNat
decreasing_by omega

/-- `DwReadAddr(addr, len, buf)`: the four-phase read.  Phase 1 reads up
to r28; phase 2 serves 28..31 from the shadow `R`; phase 3 reads up to
DWDR; phase 4 substitutes a dummy 0 for DWDR itself; the rest is read
in chunks of at most 128.  `dwdrAddr` stands for `DWDRaddr()`.
Returns the `(addr, len)` of every `DwUnsafeReadAddr` call made, the
output buffer, and the new state. -/
def DwReadAddr (dwdrReg : Nat) (dwdrAddr : Int) (addr len : Int) (s : DwState) :
    List (Int × Int) × List Nat × DwState :=
  -- Read range before r28
  let len1 := min len (28 - addr)
  let p1 : List (Int × Int) × List Nat × Int × Int × DwState :=
    if 0 < len1 then
      let r := DwUnsafeReadAddr dwdrReg addr len1 s
      ([(addr, len1)], r.1, addr + len1, len - len1, r.2)
    else ([], [], addr, len, s)
  let c1 := p1.1; let b1 := p1.2.1; let addr1 := p1.2.2.1
  let lenA := p1.2.2.2.1; let s1 := p1.2.2.2.2
  -- Some registers are cached - use the cached values.
  let p2 := readCache s1.R addr1 lenA
  let addr2 := p2.1; let lenB := p2.2.1; let b2 := p2.2.2
  -- Read range from 32 to DWDR
  let len2 := min lenB (dwdrAddr - addr2)
  let p3 : List (Int × Int) × List Nat × Int × Int × DwState :=
    if 0 < len2 then
      let r := DwUnsafeReadAddr dwdrReg addr2 len2 s1
      ([(addr2, len2)], r.1, addr2 + len2, lenB - len2, r.2)
    else ([], [], addr2, lenB, s1)
  let c3 := p3.1; let b3 := p3.2.1; let addr3 := p3.2.2.1
  let lenC := p3.2.2.2.1; let s3 := p3.2.2.2.2
  -- Provide dummy 0 value for DWDR
  let p4 : List Nat × Int × Int :=
    if addr3 = dwdrAddr ∧ 0 < lenC then ([0], addr3 + 1, lenC - 1)
    else ([], addr3, lenC)
  let b4 := p4.1; let addr4 := p4.2.1; let lenD := p4.2.2
  -- Read anything beyond DWDR no more than 128 bytes at a time
  let p5 := readChunks dwdrReg addr4 lenD s3
  (c1 ++ c3 ++ p5.1, b1 ++ b2 ++ b3 ++ b4 ++ p5.2.1, p5.2.2)

/-- `DwWriteAddr(addr, len, buf)`: prime the SRAM write loop with
`SetZ(addr); SetBP(3); 66 C2 04`, then write byte-by-byte, skipping
r28..r31 (shadow update + `SetZ` advance) and DWDR (`SetZ` advance). -/
def writeLoop (dwdrReg : Nat) (dwdrAddr addr limit : Int) (buf : List Nat)
    (s : DwState) : DwState :=
  if addr < limit then
    match buf with
    | [] => s
    | v :: rest =>
      let s' :=
        if addr < 28 ∨ (31 < addr ∧ addr ≠ dwdrAddr) then
          DwSend [0x20, v] (DwSetPC 1 s)
        else
          let s1 := if 28 ≤ addr ∧ addr ≤ 31 then
              { s with R := fun i => if i = addr.toNat then v else s.R i }
            else s
          DwSetZ dwdrReg ((addr + 1).emod 65536).toNat s1
      writeLoop dwdrReg dwdrAddr (addr + 1) limit rest s'
  else s
termination_by (limit - addr).toNat
decreasing_by all_goals omega

/-- `DwWriteAddr` entry: prime, then the per-byte loop. -/
def DwWriteAddr (dwdrReg : Nat) (dwdrAddr addr : Int) (buf : List Nat)
    (s : DwState) : DwState :=
  let s1 := DwSend [0x66, 0xC2, 0x04]
              (DwSetBP 3 (DwSetZ dwdrReg (addr.emod 65536).toNat s))
  writeLoop dwdrReg dwdrAddr addr (addr + buf.length) buf s1

/-- `DwReconnect()`: send `F0`, read the 16-bit word `w` (big-endian),
set `PC = (2 * (w - 1)) % FlashSize()` (C `%` truncates toward zero,
i.e. `Int.tmod`), then `DwGetRegs(28, R+28, 4)` — the received bytes
land in the shadow slots 28..31 (a short read leaves the rest). -/
def DwReconnect (dwdrReg : Nat) (flashSize : Int) (s : DwState) : DwState :=
  let s1 := DwSend [0xF0] s
  let rw := DwReadWord s1
  let s2 := { rw.2 with PC := (2 * ((rw.1 : Int) - 1)).tmod flashSize }
  let gr := DwGetRegs dwdrReg 28 4 s2
  { gr.2 with
    R := fun i => if 28 ≤ i ∧ i < 28 + gr.1.length then gr.1.getD (i - 28) 0
                  else gr.2.R i }

/-- `DwGo()`: restore the cached registers with `DwSetRegs(28, R, 4)`
(note: the C passes the base pointer `R`, so bytes `R[0..3]` are sent),
`SetPC(PC/2)` (C division truncates: `tdiv`; the `u16` parameter takes
the value mod 2^16), then either one context byte (`40`/`60`, no
breakpoint) or `SetBP(BP/2)` plus `41`/`61`, then `30`, then `DwWait()`. -/
def DwGo (dwdrReg : Nat) (s : DwState) : DwState :=
  let s1 := DwSetRegs dwdrReg 28 [s.R 0, s.R 1, s.R 2, s.R 3] s
  let s2 := DwSetPC ((s.PC.tdiv 2).emod 65536).toNat s1
  let s3 :=
    if s.BP < 0 then
      DwSend [if s.TimerEnable then 0x40 else 0x60] s2
    else
      DwSend [if s.TimerEnable then 0x41 else 0x61]
        (DwSetBP ((s.BP.tdiv 2).emod 65536).toNat s2)
  DwWait (DwSend [0x30] s3)

/-- The summation loop of `SetDwireBaud`:
`for (i = lo; i < hi; i++) acc += times[i]` over the `u16` array. -/
def sumTimes (times : List Nat) (i hi' : Nat) : Nat :=
  if i < hi' then times.getD i 0 + sumTimes times (i + 1) hi'
  else 0
termination_by hi' - i
decreasing_by omega

/-- `SetDwireBaud()`: with `status` bytes of pulse-width read-back
(`times` being the `status/2` 16-bit samples), fail if `status < 18`;
otherwise sum the last 9 samples, set
`cyclesPerPulse = (6*sum)/9 + 8`, program the adapter via a mode-2 OUT
whose 2-byte payload is `dwBitTime = (cyclesPerPulse-8)/4`
little-endian, and succeed.  Returns
`(success, cyclesPerPulse, state)`.  All arithmetic is on `uint32_t`;
`6 * sum ≤ 6*9*65535 < 2^32` so no wrap-around occurs. -/
def SetDwireBaud (status : Int) (times : List Nat) (s : DwState) :
    Bool × Nat × DwState :=
  if status < 18 then (false, 0, s)
  else
    let measurementCount := (status.tdiv 2).toNat
    let cyclesPerPulse := 6 * sumTimes times (measurementCount - 9) measurementCount / 9 + 8
    let dwBitTime := (cyclesPerPulse - 8) / 4
    (true, cyclesPerPulse,
     { s with trace := s.trace ++ [⟨2, [dwBitTime &&& 0xff, (dwBitTime >>> 8) &&& 0xff]⟩] })

/-- The baud rate reported by `DwBreakAndSync` on success:
`16500000 / cyclesPerPulse`. -/
def baudReport (cyclesPerPulse : Nat) : Nat := 16500000 / cyclesPerPulse

/-- Modelled from the spec: the repository source under `src/` contains
no AVR instruction decoder (the disassembler that decodes opcodes is
outside this file).  This decodes the AVR `IN`/`OUT` opcode format
`1011 ?AAd dddd AAAA` named by §4.4.2/§8.1 of the spec: bit 11
distinguishes `IN` (`false` here) from `OUT` (`true`), bits 4..8 are
the CPU register, bits 9..10 and 0..3 are the I/O register. -/
def decodeInOut (op : Nat) : Option (Bool × Nat × Nat) :=
  if op &&& 0xF800 = 0xB000 then
    some (false, (op >>> 4) &&& 0x1F, ((op >>> 5) &&& 0x30) ||| (op &&& 0xF))
  else if op &&& 0xF800 = 0xB800 then
    some (true, (op >>> 4) &&& 0x1F, ((op >>> 5) &&& 0x30) ||| (op &&& 0xF))
  else none

/-- A session state halted with `PC = 0x0100`, `BP = 0x0200` and timers
enabled — the configuration of the spec's go-with-breakpoint scenario. -/
def goExample : DwState :=
  { initState with PC := 0x100, BP := 0x200, TimerEnable := true }

/-- A session state with plenty of inbound data and a distinctive
shadow register file, for exercising `DwReadAddr`. -/
def readExample : DwState :=
  { initState with inbound := List.replicate 300 5, R := fun i => 100 + i }

/-! ### Pipeline lemmas -/

/-- Unfolding `DwSend` when everything fits in the buffer. -/
theorem DwSend_small (out : List Nat) (s : DwState)
    (h : s.outBuf.length + out.length ≤ 128) :
    DwSend out s = { s with outBuf := s.outBuf ++ out } := by
  rw [DwSend, if_neg (by omega)]

/-- Unfolding `DwSend` when the buffer would overflow: one mode-4
transport of exactly 128 bytes, then the loop continues. -/
theorem DwSend_pos (out : List Nat) (s : DwState)
    (h : 128 < s.outBuf.length + out.length) :
    DwSend out s = DwSend (out.drop (128 - s.outBuf.length))
      { s with outBuf := [],
               trace := s.trace ++ [⟨0x04, s.outBuf ++ out.take (128 - s.outBuf.length)⟩] } := by
  rw [DwSend, if_pos h]
  rfl

/-- `DwSend` touches only `outBuf` and `trace`. -/
theorem DwSend_fields (out : List Nat) (s : DwState) :
    (DwSend out s).inbound = s.inbound ∧ (DwSend out s).R = s.R ∧
    (DwSend out s).PC = s.PC ∧ (DwSend out s).BP = s.BP ∧
    (DwSend out s).TimerEnable = s.TimerEnable := by
  generalize hn : s.outBuf.length + out.length = n
  induction n using Nat.strong_induction_on generalizing out s with
  | _ n ih =>
    by_cases h : 128 < s.outBuf.length + out.length
    · rw [DwSend_pos out s h]
      exact ih ((out.drop (128 - s.outBuf.length)).length)
        (by simp only [List.length_drop]; omega)
        (out.drop (128 - s.outBuf.length))
        { s with outBuf := [],
                 trace := s.trace ++ [⟨0x04, s.outBuf ++ out.take (128 - s.outBuf.length)⟩] }
        (by simp)
    · rw [DwSend_small out s (by omega)]
      exact ⟨rfl, rfl, rfl, rfl, rfl⟩

theorem DwSend_inbound (out : List Nat) (s : DwState) :
    (DwSend out s).inbound = s.inbound := (DwSend_fields out s).1

theorem DwSend_R (out : List Nat) (s : DwState) :
    (DwSend out s).R = s.R := (DwSend_fields out s).2.1

/-- `dwBufferFlush` touches only `outBuf` and `trace`. -/
theorem dwBufferFlush_fields (m : Nat) (s : DwState) :
    (dwBufferFlush m s).inbound = s.inbound ∧ (dwBufferFlush m s).R = s.R ∧
    (dwBufferFlush m s).PC = s.PC ∧ (dwBufferFlush m s).BP = s.BP ∧
    (dwBufferFlush m s).TimerEnable = s.TimerEnable ∧
    (dwBufferFlush m s).outBuf = [] ∨ dwBufferFlush m s = s := by
  unfold dwBufferFlush
  split
  · right; rfl
  · left; simp [dwUSBSendBytes]

/-- `dwBufferFlush` never changes `inbound` or `R`. -/
theorem dwBufferFlush_inbound (m : Nat) (s : DwState) :
    (dwBufferFlush m s).inbound = s.inbound := by
  unfold dwBufferFlush; split <;> simp [dwUSBSendBytes]

theorem dwBufferFlush_R (m : Nat) (s : DwState) :
    (dwBufferFlush m s).R = s.R := by
  unfold dwBufferFlush; split <;> simp [dwUSBSendBytes]

theorem dwBufferFlush_outBuf (m : Nat) (s : DwState) :
    (dwBufferFlush m s).outBuf = [] ∨ (dwBufferFlush m s).outBuf = s.outBuf := by
  unfold dwBufferFlush; split
  · right; rfl
  · left; simp [dwUSBSendBytes]

/-- `DwReceive` in closed form: the status is the number of inbound
bytes available (capped at `inlen`), the bytes are the first `inlen`
inbound bytes, and the state is the flushed state minus those bytes. -/
theorem DwReceive_eq (inlen : Nat) (s : DwState) :
    DwReceive inlen s =
      (min inlen s.inbound.length, s.inbound.take inlen,
       { dwBufferFlush 0x14 s with inbound := s.inbound.drop inlen }) := by
  have hin : (dwBufferFlush 0x14 s).inbound = s.inbound := dwBufferFlush_inbound _ s
  unfold DwReceive
  simp only [hin]
  rcases Nat.le_total inlen s.inbound.length with h | h
  · simp [Nat.min_eq_left h]
  · simp [Nat.min_eq_right h, List.take_of_length_le h, List.drop_of_length_le h]

/-- The buffer-capacity invariant survives `DwSend`. -/
theorem DwSend_outBuf_le (out : List Nat) (s : DwState)
    (h : s.outBuf.length ≤ 128) : (DwSend out s).outBuf.length ≤ 128 := by
  generalize hn : s.outBuf.length + out.length = n
  induction n using Nat.strong_induction_on generalizing out s with
  | _ n ih =>
    by_cases hc : 128 < s.outBuf.length + out.length
    · rw [DwSend_pos out s hc]
      exact ih ((out.drop (128 - s.outBuf.length)).length)
        (by simp only [List.length_drop]; omega)
        (out.drop (128 - s.outBuf.length)) _ (by simp) (by simp)
    · rw [DwSend_small out s (by omega)]
      simp only [List.length_append]
      omega

/-- `DwSend` of a non-empty payload leaves the buffer non-empty. -/
theorem DwSend_outBuf_ne_nil (out : List Nat) (s : DwState)
    (h : out ≠ []) (hb : s.outBuf.length ≤ 128) :
    (DwSend out s).outBuf ≠ [] := by
  generalize hn : s.outBuf.length + out.length = n
  induction n using Nat.strong_induction_on generalizing out s with
  | _ n ih =>
    by_cases hc : 128 < s.outBuf.length + out.length
    · rw [DwSend_pos out s hc]
      have hol : 0 < out.length := List.length_pos.mpr h
      refine ih ((out.drop (128 - s.outBuf.length)).length)
        (by simp only [List.length_drop]; omega)
        (out.drop (128 - s.outBuf.length)) _ ?_ (by simp) (by simp)
      have : 0 < (out.drop (128 - s.outBuf.length)).length := by
        simp only [List.length_drop]; omega
      exact List.length_pos.mp this
    · rw [DwSend_small out s (by omega)]
      simp only [ne_eq, List.append_eq_nil]
      tauto

/-- Closed form of `DwSend` from an empty buffer: the transports are
128-byte mode-4 slices and the remainder stays buffered. -/
theorem DwSend_empty_char : ∀ (n : Nat) (out : List Nat) (s : DwState),
    out.length ≤ n → s.outBuf = [] →
    ∃ ts, (DwSend out s).trace = s.trace ++ ts ∧
      ts.length = (out.length - 1) / 128 ∧
      (∀ t ∈ ts, t.mode = 0x04 ∧ t.data.length = 128) ∧
      (DwSend out s).outBuf = out.drop (128 * ts.length) := by
  intro n
  induction n with
  | zero =>
    intro out s h h0
    rw [DwSend_small out s (by simp only [h0, List.length_nil]; omega)]
    exact ⟨[], by simp, by simp; omega, by simp, by simp [h0]⟩
  | succ n ih =>
    intro out s h h0
    by_cases hl : 128 < out.length
    · rw [DwSend_pos out s (by rw [h0]; simpa using hl), h0]
      simp only [List.length_nil, Nat.sub_zero, List.nil_append]
      obtain ⟨ts, h1, h2, h3, h4⟩ := ih (out.drop 128)
        { s with outBuf := [], trace := s.trace ++ [⟨0x04, out.take 128⟩] }
        (by simp only [List.length_drop]; omega) rfl
      refine ⟨⟨0x04, out.take 128⟩ :: ts, ?_, ?_, ?_, ?_⟩
      · rw [h1]; simp
      · simp only [List.length_cons, h2, List.length_drop]
        omega
      · intro t ht
        rcases List.mem_cons.mp ht with rfl | ht
        · exact ⟨rfl, by simp only [List.length_take]; omega⟩
        · exact h3 t ht
      · rw [h4, List.drop_drop, List.length_cons]
        congr 1
        ring
    · rw [DwSend_small out s (by rw [h0]; simpa using hl)]
      refine ⟨[], by simp, ?_, by simp, by simp [h0]⟩
      simp only [List.length_nil]
      omega

/-- C4, amended.  From an empty buffer, `Send(N)` for `N ≤ 128` issues
no transport and leaves all `N` bytes buffered; for `N > 128` it
issues exactly `⌈N/128⌉ − 1 = ⌊(N−1)/128⌋` mode-4 transports of 128
bytes each and leaves `N − 128·⌊(N−1)/128⌋ ∈ [1,128]` bytes buffered —
equal to `⌊N/128⌋` transports and `N mod 128` bytes whenever `128 ∤ N`. -/
theorem claim_C4_amended (out : List Nat) (s : DwState) (h : s.outBuf = []) :
    ∃ ts, (DwSend out s).trace = s.trace ++ ts ∧
      (out.length ≤ 128 → ts = [] ∧ (DwSend out s).outBuf = out) ∧
      (128 < out.length →
        ts.length = (out.length - 1) / 128 ∧
        (∀ t ∈ ts, t.mode = 0x04 ∧ t.data.length = 128) ∧
        (DwSend out s).outBuf.length = out.length - 128 * ((out.length - 1) / 128) ∧
        1 ≤ (DwSend out s).outBuf.length ∧ (DwSend out s).outBuf.length ≤ 128) ∧
      (128 < out.length → ¬(128 ∣ out.length) →
        ts.length = out.length / 128 ∧
        (DwSend out s).outBuf.length = out.length % 128) := by
  obtain ⟨ts, h1, h2, h3, h4⟩ := DwSend_empty_char out.length out s le_rfl h
  refine ⟨ts, h1, ?_, ?_, ?_⟩
  · intro hle
    have hts : ts.length = 0 := by rw [h2]; omega
    refine ⟨List.length_eq_zero.mp hts, ?_⟩
    rw [h4, hts]
    simp
  · intro hgt
    refine ⟨h2, h3, ?_, ?_, ?_⟩ <;>
      rw [h4, List.length_drop, h2] <;> omega
  · intro hgt hnd
    constructor
    · rw [h2]; omega
    · rw [h4, List.length_drop, h2]; omega

/-- C4 counterexample: `Send` of 256 bytes from an empty buffer issues
one mode-4 transport (not `⌊256/128⌋ = 2`) and leaves 128 bytes
buffered (not `256 mod 128 = 0`). -/
theorem claim_C4_counterexample :
    (DwSend (List.replicate 256 7) initState).trace.length = 1 ∧
    (DwSend (List.replicate 256 7) initState).outBuf.length = 128 ∧
    ¬((DwSend (List.replicate 256 7) initState).trace.length = 256 / 128 ∧
      (DwSend (List.replicate 256 7) initState).outBuf.length = 256 % 128) := by
  obtain ⟨ts, h1, h2, h3, h4⟩ :=
    DwSend_empty_char 256 (List.replicate 256 7) initState
      (by rw [List.length_replicate]) rfl
  rw [List.length_replicate] at h2
  norm_num at h2
  rw [h2] at h4
  norm_num [List.drop_replicate] at h4
  have htr : (DwSend (List.replicate 256 7) initState).trace.length = 1 := by
    rw [h1]
    simp [initState, h2]
  have hob : (DwSend (List.replicate 256 7) initState).outBuf.length = 128 := by
    rw [h4]
    simp
  refine ⟨htr, hob, ?_⟩
  rw [htr, hob]
  norm_num

/-- C4 witness. -/
theorem claim_C4_witness :
    initState.outBuf = [] ∧
    (∃ ts, (DwSend [1, 2, 3] initState).trace = initState.trace ++ ts ∧
      (([1, 2, 3] : List Nat).length ≤ 128 →
        ts = [] ∧ (DwSend [1, 2, 3] initState).outBuf = [1, 2, 3]) ∧
      (128 < ([1, 2, 3] : List Nat).length →
        ts.length = (([1, 2, 3] : List Nat).length - 1) / 128 ∧
        (∀ t ∈ ts, t.mode = 0x04 ∧ t.data.length = 128) ∧
        (DwSend [1, 2, 3] initState).outBuf.length =
          ([1, 2, 3] : List Nat).length -
            128 * ((([1, 2, 3] : List Nat).length - 1) / 128) ∧
        1 ≤ (DwSend [1, 2, 3] initState).outBuf.length ∧
        (DwSend [1, 2, 3] initState).outBuf.length ≤ 128) ∧
      (128 < ([1, 2, 3] : List Nat).length → ¬(128 ∣ ([1, 2, 3] : List Nat).length) →
        ts.length = ([1, 2, 3] : List Nat).length / 128 ∧
        (DwSend [1, 2, 3] initState).outBuf.length = ([1, 2, 3] : List Nat).length % 128)) :=
  ⟨rfl, claim_C4_amended [1, 2, 3] initState rfl⟩

/-- C5: the buffer-capacity invariant `0 ≤ OutBufLength ≤ 128` (lengths
are naturals, so non-negativity is inherent) holds initially and is
preserved by `Send`, `Flush`, `Receive`, `Sync` and `Wait`. -/
theorem claim_C5 :
    initState.outBuf.length ≤ 128 ∧
    (∀ out s, s.outBuf.length ≤ 128 → (DwSend out s).outBuf.length ≤ 128) ∧
    (∀ s, s.outBuf.length ≤ 128 → (DwFlush s).outBuf.length ≤ 128) ∧
    (∀ n s, s.outBuf.length ≤ 128 → ((DwReceive n s).2.2).outBuf.length ≤ 128) ∧
    (∀ s, s.outBuf.length ≤ 128 → (DwSync s).outBuf.length ≤ 128) ∧
    (∀ s, s.outBuf.length ≤ 128 → (DwWait s).outBuf.length ≤ 128) := by
  have hflush : ∀ m s, s.outBuf.length ≤ 128 → (dwBufferFlush m s).outBuf.length ≤ 128 := by
    intro m s h
    rcases dwBufferFlush_outBuf m s with h' | h' <;> rw [h'] <;> simp [h]
  refine ⟨by simp [initState], DwSend_outBuf_le, fun s h => hflush _ s h, ?_,
    fun s h => hflush _ s h, fun s h => hflush _ s h⟩
  intro n s h
  rw [DwReceive_eq]
  exact hflush _ s h

/-- C5 witness. -/
theorem claim_C5_witness :
    (DwSend [1, 2, 3] initState).outBuf.length ≤ 128 ∧
    (DwFlush initState).outBuf.length ≤ 128 := by
  exact ⟨claim_C5.2.1 [1, 2, 3] initState (by simp [initState]),
    claim_C5.2.2.1 initState (by simp [initState])⟩

/-- C6: a mode-0x14 flush of an empty buffer is a no-op (no transport);
a flush of a non-empty buffer emits exactly one mode-0x14 transport
carrying the (non-empty) buffer; and any `Send` of at least one byte
leaves the buffer non-empty, so the next send-then-read transport has
at least one outbound byte. -/
theorem claim_C6 :
    (∀ s : DwState, s.outBuf = [] → dwBufferFlush 0x14 s = s) ∧
    (∀ s : DwState, s.outBuf ≠ [] →
      (dwBufferFlush 0x14 s).trace = s.trace ++ [⟨0x14, s.outBuf⟩]) ∧
    (∀ (out : List Nat) (s : DwState), out ≠ [] → s.outBuf.length ≤ 128 →
      (DwSend out s).outBuf ≠ []) := by
  refine ⟨?_, ?_, DwSend_outBuf_ne_nil⟩
  · intro s h
    unfold dwBufferFlush
    rw [if_pos h]
  · intro s h
    unfold dwBufferFlush
    rw [if_neg h]
    rfl

/-- C6 witness. -/
theorem claim_C6_witness :
    dwBufferFlush 0x14 initState = initState ∧
    (DwSend [9] initState).outBuf ≠ [] := by
  exact ⟨claim_C6.1 initState rfl,
    claim_C6.2.2 [9] initState (by simp) (by simp [initState])⟩

/-- C10: `DwReadByte` and `DwReadWord` ignore the receive status and use
zero-initialized local buffers, so when no inbound data is delivered
both return 0. -/
theorem claim_C10 (s : DwState) (h : s.inbound = []) :
    (DwReadByte s).1 = 0 ∧ (DwReadWord s).1 = 0 := by
  unfold DwReadByte DwReadWord
  rw [DwReceive_eq, DwReceive_eq]
  simp [overlay, h]

/-- C10 witness. -/
theorem claim_C10_witness :
    (DwReadByte initState).1 = 0 ∧ (DwReadWord initState).1 = 0 :=
  claim_C10 initState rfl

/-! ### Shadow-register lemmas and the Go trace -/

/-- The single-register loop of `DwSetRegs` never touches the shadow. -/
theorem setRegsLoop_R (dr : Nat) (regs : List Nat) :
    ∀ (first : Nat) (s : DwState), (setRegsLoop dr first regs s).R = s.R := by
  induction regs with
  | nil => intro first s; rfl
  | cons v rest ih =>
    intro first s
    rw [setRegsLoop, ih]
    simp [DwSetReg, DwIn, DwInst, DwSend_R]

/-- `DwSetRegs` writes the target but never the shadow `R`. -/
theorem DwSetRegs_R (dr first : Nat) (regs : List Nat) (s : DwState) :
    (DwSetRegs dr first regs s).R = s.R := by
  unfold DwSetRegs
  split
  · exact setRegsLoop_R dr regs first s
  · simp [DwSetPC, DwSetBP, DwSend_R]

/-- Evaluating `DwSetRegs(28, [a,b,c,d])` from an empty buffer: the bulk
register-write framing plus the payload, all buffered, nothing else
changed. -/
theorem DwSetRegs28_eval (dr a b c d : Nat) (s : DwState) (h : s.outBuf = []) :
    DwSetRegs dr 28 [a, b, c, d] s =
      { s with outBuf := [0xD0, 0x10, 0x1C, 0xD1, 0x10, 0x20,
                          0x66, 0xC2, 0x05, 0x20, a, b, c, d] } := by
  unfold DwSetRegs DwSetPC DwSetBP
  rw [if_neg (by simp)]
  simp [DwSend_small, h, hi, lo]
  decide

/-- C8 counterexample: starting from the all-zero shadow, after
`SetRegs(28, [1,2,3,4])` the shadow `R[28..31]` is still `[0,0,0,0]`,
not `[1,2,3,4]`. -/
theorem claim_C8_counterexample :
    ¬((DwSetRegs 0x22 28 [1, 2, 3, 4] initState).R 28 = 1 ∧
      (DwSetRegs 0x22 28 [1, 2, 3, 4] initState).R 29 = 2 ∧
      (DwSetRegs 0x22 28 [1, 2, 3, 4] initState).R 30 = 3 ∧
      (DwSetRegs 0x22 28 [1, 2, 3, 4] initState).R 31 = 4) := by
  rw [DwSetRegs_R]
  simp [initState]

/-- C8, amended: `SetRegs(28, [a,b,c,d])` emits the bulk register-write
framing with payload `[a,b,c,d]` (so the *target's* r28..r31 receive
those bytes), but the host shadow `R` is left unchanged — `R` is only
refreshed by `Reconnect`/`GetRegs` and by `WriteAddr`. -/
theorem claim_C8_amended (dr a b c d : Nat) (s : DwState) (h : s.outBuf = []) :
    DwSetRegs dr 28 [a, b, c, d] s =
      { s with outBuf := [0xD0, 0x10, 0x1C, 0xD1, 0x10, 0x20,
                          0x66, 0xC2, 0x05, 0x20, a, b, c, d] } ∧
    (DwSetRegs dr 28 [a, b, c, d] s).R = s.R :=
  ⟨DwSetRegs28_eval dr a b c d s h, DwSetRegs_R dr 28 [a, b, c, d] s⟩

/-- C8 witness. -/
theorem claim_C8_witness :
    initState.outBuf = [] ∧
    (DwSetRegs 0x22 28 [1, 2, 3, 4] initState =
      { initState with outBuf := [0xD0, 0x10, 0x1C, 0xD1, 0x10, 0x20,
                                  0x66, 0xC2, 0x05, 0x20, 1, 2, 3, 4] } ∧
     (DwSetRegs 0x22 28 [1, 2, 3, 4] initState).R = initState.R) :=
  ⟨rfl, claim_C8_amended 0x22 1 2 3 4 initState rfl⟩

/-- C1 counterexample: with `PC = 0x0100`, `BP = 0x0200`,
`TimerEnable = true` and an empty buffer, the wire trace is *not* the
claimed sequence (`SetRegs` bytes, then `D0 11 80`, `D1 11 00`, `41`,
`30`, flushed with mode 0x0C): the `SetPC(0x0080)` bytes are actually
`D0 10 80`, since `hi(0x0080)|0x10 = 0x10`. -/
theorem claim_C1_counterexample :
    (DwGo 0x22 goExample).trace ≠
      [⟨0x0C, (DwSetRegs 0x22 28 [goExample.R 0, goExample.R 1, goExample.R 2, goExample.R 3]
                 goExample).outBuf ++
              [0xD0, 0x11, 0x80, 0xD1, 0x11, 0x00, 0x41, 0x30]⟩] := by
  have hgo : (DwGo 0x22 goExample).trace =
      goExample.trace ++
        [⟨0x0C, [0xD0, 0x10, 0x1C, 0xD1, 0x10, 0x20, 0x66, 0xC2, 0x05, 0x20,
                 goExample.R 0, goExample.R 1, goExample.R 2, goExample.R 3,
                 0xD0, 0x10, 0x80, 0xD1, 0x11, 0x00, 0x41, 0x30]⟩] := by
    unfold DwGo DwSetRegs DwSetPC DwSetBP DwWait
    norm_num [goExample, initState]
    simp [DwSend_small, hi, lo, dwBufferFlush, dwUSBSendBytes, goExample, initState]
    decide
  rw [hgo, DwSetRegs28_eval 0x22 _ _ _ _ goExample rfl]
  simp [goExample, initState]

/-- C1, amended: for every call to `Go` with `PC = 0x0100`,
`BP = 0x0200`, `TimerEnable = true` and an empty outbound buffer, the
bytes emitted are the `SetRegs(28, R, 4)` encoding
(`D0 10 1C  D1 10 20  66 C2 05 20` and the four register bytes — the C
call passes the base pointer `R`, so they are `R[0..3]`), then
`D0 10 80` (SetPC of `PC/2 = 0x0080`), then `D1 11 00` (SetBP of
`BP/2 = 0x0100`), then `41`, then `30`, all flushed in a single
mode-0x0C (wait) transport. -/
theorem claim_C1_amended (dr : Nat) (s : DwState) (h : s.outBuf = [])
    (hPC : s.PC = 0x100) (hBP : s.BP = 0x200) (hTE : s.TimerEnable = true) :
    (DwGo dr s).trace = s.trace ++
      [⟨0x0C, [0xD0, 0x10, 0x1C, 0xD1, 0x10, 0x20, 0x66, 0xC2, 0x05, 0x20,
               s.R 0, s.R 1, s.R 2, s.R 3,
               0xD0, 0x10, 0x80, 0xD1, 0x11, 0x00, 0x41, 0x30]⟩] ∧
    (DwGo dr s).outBuf = [] := by
  unfold DwGo DwSetRegs DwSetPC DwSetBP DwWait
  rw [hPC, hBP, hTE]
  norm_num
  simp [DwSend_small, h, hi, lo, dwBufferFlush, dwUSBSendBytes]
  decide

/-- C1 witness. -/
theorem claim_C1_witness :
    goExample.outBuf = [] ∧ goExample.PC = 0x100 ∧ goExample.BP = 0x200 ∧
    goExample.TimerEnable = true ∧
    ((DwGo 0x22 goExample).trace = goExample.trace ++
      [⟨0x0C, [0xD0, 0x10, 0x1C, 0xD1, 0x10, 0x20, 0x66, 0xC2, 0x05, 0x20,
               goExample.R 0, goExample.R 1, goExample.R 2, goExample.R 3,
               0xD0, 0x10, 0x80, 0xD1, 0x11, 0x00, 0x41, 0x30]⟩] ∧
     (DwGo 0x22 goExample).outBuf = []) :=
  ⟨rfl, rfl, rfl, rfl, claim_C1_amended 0x22 goExample rfl rfl rfl rfl⟩

/-! ### Clock recovery -/

/-- The C summation loop equals the sum of the list tail it walks. -/
theorem sumTimes_drop (times : List Nat) :
    ∀ (n i : Nat), times.length - i ≤ n →
      sumTimes times i times.length = (times.drop i).sum := by
  intro n
  induction n with
  | zero =>
    intro i h
    rw [sumTimes, if_neg (by omega), List.drop_of_length_le (by omega)]
    rfl
  | succ n ih =>
    intro i h
    by_cases hlt : i < times.length
    · rw [sumTimes, if_pos hlt, ih (i + 1) (by omega),
        List.drop_eq_getElem_cons hlt, List.sum_cons]
      congr 1
      simp [List.getD_eq_getElem?_getD, List.getElem?_eq_getElem hlt]
    · rw [sumTimes, if_neg hlt, List.drop_of_length_le (by omega)]
      rfl

/-- C2: with at least 18 bytes (9 samples) of read-back, the routine
computes `cyclesPerPulse = (6·S)/9 + 8` with `S` the sum of the last 9
samples, and programs the adapter with a mode-2 OUT whose 2-byte
little-endian payload is `dwBitTime = (cyclesPerPulse − 8)/4`; fewer
than 18 bytes are rejected.  Concretely, for 9 samples of 82,
`cyclesPerPulse = 500`, the payload is `7B 00` and the reported baud is
`16500000/500 = 33000`. -/
theorem claim_C2 (status : Int) (times : List Nat) (s : DwState)
    (hlen : times.length = (status.tdiv 2).toNat) :
    (18 ≤ status →
      SetDwireBaud status times s =
        (true, 6 * (times.drop (times.length - 9)).sum / 9 + 8,
         { s with trace := s.trace ++
             [⟨2, [6 * (times.drop (times.length - 9)).sum / 9 / 4 &&& 0xff,
                   ((6 * (times.drop (times.length - 9)).sum / 9 / 4) >>> 8) &&& 0xff]⟩] })) ∧
    (status < 18 → SetDwireBaud status times s = (false, 0, s)) ∧
    (SetDwireBaud 18 (List.replicate 9 82) initState =
       (true, 500, { initState with trace := [⟨2, [0x7B, 0x00]⟩] }) ∧
     baudReport 500 = 33000) := by
  refine ⟨?_, ?_, ?_, ?_⟩
  · intro h
    unfold SetDwireBaud
    rw [if_neg (by omega)]
    dsimp only
    rw [← hlen, sumTimes_drop times times.length _ (by omega), Nat.add_sub_cancel]
  · intro h
    unfold SetDwireBaud
    rw [if_pos h]
  · have h9 : sumTimes (List.replicate 9 82) 0 9 = 738 := by
      have h := sumTimes_drop (List.replicate (9 : Nat) 82) 9 0 (by simp)
      simpa using h
    unfold SetDwireBaud
    rw [if_neg (by norm_num)]
    dsimp only
    have hmc : ((18 : Int).tdiv 2).toNat = 9 := rfl
    rw [hmc, show (9 : Nat) - 9 = 0 from rfl, h9]
    norm_num [initState]
    decide
  · norm_num [baudReport]

/-- C2 witness. -/
theorem claim_C2_witness :
    (List.replicate (9 : Nat) 82).length = ((18 : Int).tdiv 2).toNat ∧
    ((18 ≤ (18 : Int) →
      SetDwireBaud 18 (List.replicate 9 82) initState =
        (true,
         6 * ((List.replicate 9 82).drop ((List.replicate (9 : Nat) 82).length - 9)).sum / 9 + 8,
         { initState with trace := initState.trace ++
             [⟨2, [6 * ((List.replicate 9 82).drop ((List.replicate (9 : Nat) 82).length - 9)).sum / 9 / 4 &&& 0xff,
                   ((6 * ((List.replicate 9 82).drop ((List.replicate (9 : Nat) 82).length - 9)).sum / 9 / 4) >>> 8) &&& 0xff]⟩] })) ∧
    ((18 : Int) < 18 → SetDwireBaud 18 (List.replicate 9 82) initState = (false, 0, initState)) ∧
    (SetDwireBaud 18 (List.replicate 9 82) initState =
       (true, 500, { initState with trace := [⟨2, [0x7B, 0x00]⟩] }) ∧
     baudReport 500 = 33000)) :=
  ⟨by decide, claim_C2 18 (List.replicate 9 82) initState (by decide)⟩

/-! ### Instruction encoding -/

/-- Round-trip of the `IN`/`OUT` encoders through the decoder, checked
over the whole domain. -/
theorem inOut_roundTrip : ∀ (r : Fin 32) (i : Fin 64),
    decodeInOut (inOpcode r.val i.val) = some (false, r.val, i.val) ∧
    decodeInOut (outOpcode r.val i.val) = some (true, r.val, i.val) := by decide

/-- C7: for all `reg ∈ [0,31]` and `ioreg ∈ [0,63]`, the `IN` and `OUT`
encodings decode back to exactly the same `(operation, reg, ioreg)`
triple; hence each encoding is injective on that domain and the two
opcode spaces are disjoint. -/
theorem claim_C7 (reg ioreg : Nat) (hr : reg < 32) (hio : ioreg < 64) :
    decodeInOut (inOpcode reg ioreg) = some (false, reg, ioreg) ∧
    decodeInOut (outOpcode reg ioreg) = some (true, reg, ioreg) ∧
    (∀ r' i', r' < 32 → i' < 64 →
      inOpcode reg ioreg = inOpcode r' i' → reg = r' ∧ ioreg = i') ∧
    (∀ r' i', r' < 32 → i' < 64 →
      outOpcode reg ioreg = outOpcode r' i' → reg = r' ∧ ioreg = i') ∧
    (∀ r' i', r' < 32 → i' < 64 → inOpcode reg ioreg ≠ outOpcode r' i') := by
  have h1 := inOut_roundTrip ⟨reg, hr⟩ ⟨ioreg, hio⟩
  refine ⟨h1.1, h1.2, ?_, ?_, ?_⟩
  · intro r' i' hr' hi' heq
    have h2 := (inOut_roundTrip ⟨r', hr'⟩ ⟨i', hi'⟩).1
    rw [heq] at h1
    have h3 := h1.1.symm.trans h2
    simp only [Option.some.injEq, Prod.mk.injEq] at h3
    exact ⟨h3.2.1, h3.2.2⟩
  · intro r' i' hr' hi' heq
    have h2 := (inOut_roundTrip ⟨r', hr'⟩ ⟨i', hi'⟩).2
    rw [heq] at h1
    have h3 := h1.2.symm.trans h2
    simp only [Option.some.injEq, Prod.mk.injEq] at h3
    exact ⟨h3.2.1, h3.2.2⟩
  · intro r' i' hr' hi' heq
    have h2 := (inOut_roundTrip ⟨r', hr'⟩ ⟨i', hi'⟩).2
    rw [heq] at h1
    have h3 := h1.1.symm.trans h2
    simp only [Option.some.injEq, Prod.mk.injEq] at h3
    exact Bool.false_ne_true h3.1

/-- C7 witness. -/
theorem claim_C7_witness :
    (17 : Nat) < 32 ∧ (42 : Nat) < 64 ∧
    (decodeInOut (inOpcode 17 42) = some (false, 17, 42) ∧
     decodeInOut (outOpcode 17 42) = some (true, 17, 42) ∧
     (∀ r' i', r' < 32 → i' < 64 →
       inOpcode 17 42 = inOpcode r' i' → 17 = r' ∧ 42 = i') ∧
     (∀ r' i', r' < 32 → i' < 64 →
       outOpcode 17 42 = outOpcode r' i' → 17 = r' ∧ 42 = i') ∧
     (∀ r' i', r' < 32 → i' < 64 → inOpcode 17 42 ≠ outOpcode r' i')) :=
  ⟨by decide, by decide, claim_C7 17 42 (by decide) (by decide)⟩

/-! ### Reconnect -/

/-- Reading a word big-endian: `(b0 << 8) | b1 = 256·b0 + b1` for a
byte `b1`. -/
theorem word_big_endian (b0 b1 : Nat) (h : b1 < 256) :
    (b0 <<< 8) ||| b1 = 256 * b0 + b1 := by
  rw [Nat.shiftLeft_eq, Nat.mul_comm b0 (2 ^ 8),
    ← Nat.mul_add_lt_is_or (show b1 < 2 ^ 8 by simpa using h) b0]

/-- C9: for a 16-bit read-back of bytes `b0` then `b1`, `Reconnect`
sends the single byte `F0` (flushed as the first mode-0x14 transport),
interprets the word big-endian as `w = 256·b0 + b1`, sets
`PC = (2·(w−1)) % FlashSize` (C truncating `%`), and refreshes the
shadow `R[28..31]` from the next four inbound bytes via
`GetRegs(28, R+28, 4)` (second transport), touching no other `R`
entry. -/
theorem claim_C9 (dr : Nat) (flashSize : Int) (b0 b1 r0 r1 r2 r3 : Nat)
    (rest : List Nat) (s : DwState)
    (h : s.outBuf = []) (hb1 : b1 < 256)
    (hin : s.inbound = b0 :: b1 :: r0 :: r1 :: r2 :: r3 :: rest) :
    (DwReconnect dr flashSize s).PC =
      (2 * ((256 * (b0 : Int) + b1) - 1)).tmod flashSize ∧
    (DwReconnect dr flashSize s).trace =
      s.trace ++ [⟨0x14, [0xF0]⟩,
                  ⟨0x14, [0xD0, 0x10, 0x1C, 0xD1, 0x10, 0x20, 0x66, 0xC2, 0x01, 0x20]⟩] ∧
    (DwReconnect dr flashSize s).R 28 = r0 ∧
    (DwReconnect dr flashSize s).R 29 = r1 ∧
    (DwReconnect dr flashSize s).R 30 = r2 ∧
    (DwReconnect dr flashSize s).R 31 = r3 ∧
    (∀ j, j < 28 ∨ 31 < j → (DwReconnect dr flashSize s).R j = s.R j) := by
  unfold DwReconnect DwReadWord DwGetRegs DwSetPC DwSetBP overlay
  simp [DwSend_small, DwReceive_eq, dwBufferFlush, dwUSBSendBytes, hi, lo, h, hin,
    word_big_endian b0 b1 hb1]
  refine ⟨by decide, ?_⟩
  intro j hj h1 h2
  omega

/-- C9 witness. -/
theorem claim_C9_witness :
    ({ initState with inbound := [0x12, 0x34, 9, 8, 7, 6] } : DwState).outBuf = [] ∧
    (0x34 : Nat) < 256 ∧
    ({ initState with inbound := [0x12, 0x34, 9, 8, 7, 6] } : DwState).inbound =
      0x12 :: 0x34 :: 9 :: 8 :: 7 :: 6 :: [] ∧
    ((DwReconnect 0x22 8192 { initState with inbound := [0x12, 0x34, 9, 8, 7, 6] }).PC =
      (2 * ((256 * (0x12 : Int) + 0x34) - 1)).tmod 8192 ∧
     (DwReconnect 0x22 8192 { initState with inbound := [0x12, 0x34, 9, 8, 7, 6] }).trace =
      ({ initState with inbound := [0x12, 0x34, 9, 8, 7, 6] } : DwState).trace ++
        [⟨0x14, [0xF0]⟩,
         ⟨0x14, [0xD0, 0x10, 0x1C, 0xD1, 0x10, 0x20, 0x66, 0xC2, 0x01, 0x20]⟩] ∧
     (DwReconnect 0x22 8192 { initState with inbound := [0x12, 0x34, 9, 8, 7, 6] }).R 28 = 9 ∧
     (DwReconnect 0x22 8192 { initState with inbound := [0x12, 0x34, 9, 8, 7, 6] }).R 29 = 8 ∧
     (DwReconnect 0x22 8192 { initState with inbound := [0x12, 0x34, 9, 8, 7, 6] }).R 30 = 7 ∧
     (DwReconnect 0x22 8192 { initState with inbound := [0x12, 0x34, 9, 8, 7, 6] }).R 31 = 6 ∧
     (∀ j, j < 28 ∨ 31 < j →
       (DwReconnect 0x22 8192 { initState with inbound := [0x12, 0x34, 9, 8, 7, 6] }).R j =
         ({ initState with inbound := [0x12, 0x34, 9, 8, 7, 6] } : DwState).R j)) :=
  ⟨rfl, by decide, rfl,
   claim_C9 0x22 8192 0x12 0x34 9 8 7 6 [] _ rfl (by decide) rfl⟩

/-! ### Data-area reads -/

/-- `setRegsLoop` never consumes inbound data. -/
theorem setRegsLoop_inbound (dr : Nat) (regs : List Nat) :
    ∀ (first : Nat) (s : DwState), (setRegsLoop dr first regs s).inbound = s.inbound := by
  induction regs with
  | nil => intro first s; rfl
  | cons v rest ih =>
    intro first s
    rw [setRegsLoop, ih]
    simp [DwSetReg, DwIn, DwInst, DwSend_inbound]

/-- `DwUnsafeReadAddr(a, l)` returns the next `l` inbound bytes,
consumes them, and leaves the shadow `R` untouched. -/
theorem DwUnsafeReadAddr_spec (dr : Nat) (a l : Int) (s : DwState) :
    (DwUnsafeReadAddr dr a l s).1 = s.inbound.take l.toNat ∧
    (DwUnsafeReadAddr dr a l s).2.inbound = s.inbound.drop l.toNat ∧
    (DwUnsafeReadAddr dr a l s).2.R = s.R := by
  unfold DwUnsafeReadAddr DwSetZ DwSetRegs DwSetPC DwSetBP
  simp [DwReceive_eq, DwSend_inbound, DwSend_R, dwBufferFlush_inbound, dwBufferFlush_R,
    setRegsLoop_inbound, setRegsLoop_R]

/-- The cached-register loop entered at `addr = 28` with at least 4
bytes wanted serves exactly `R[28..31]`. -/
theorem readCache_28 (R : Nat → Nat) (len : Int) (h : 4 ≤ len) :
    readCache R 28 len = (32, len - 4, [R 28, R 29, R 30, R 31]) := by
  rw [readCache, if_pos (by refine ⟨by norm_num, by norm_num, by omega⟩)]
  rw [readCache, if_pos (by refine ⟨by norm_num, by norm_num, by omega⟩)]
  rw [readCache, if_pos (by refine ⟨by norm_num, by norm_num, by omega⟩)]
  rw [readCache, if_pos (by refine ⟨by norm_num, by norm_num, by omega⟩)]
  rw [readCache, if_neg (by norm_num)]
  have h1 : ((28 : Int)).toNat = 28 := rfl
  have h2 : ((28 : Int) + 1).toNat = 29 := rfl
  have h3 : ((28 : Int) + 1 + 1).toNat = 30 := rfl
  have h4 : ((28 : Int) + 1 + 1 + 1).toNat = 31 := rfl
  have h5 : (28 : Int) + 1 + 1 + 1 + 1 = 32 := rfl
  have h6 : len - 1 - 1 - 1 - 1 = len - 4 := by ring
  rw [h1, h2, h3, h4, h5, h6]

/-- Every chunk read issued by the trailing loop stays inside
`[a, a+l)`. -/
theorem readChunks_calls (dr : Nat) :
    ∀ (n : Nat) (a l : Int) (s : DwState), l.toNat ≤ n →
      ∀ c ∈ (readChunks dr a l s).1, a ≤ c.1 ∧ c.1 + c.2 ≤ a + l ∧ 0 < c.2 := by
  intro n
  induction n with
  | zero =>
    intro a l s h c hc
    rw [readChunks, if_neg (by omega), if_neg (by omega)] at hc
    simp at hc
  | succ n ih =>
    intro a l s h c hc
    by_cases h128 : 128 < l
    · rw [readChunks, if_pos h128] at hc
      rcases List.mem_cons.mp hc with rfl | hc
      · refine ⟨le_refl _, by omega, by norm_num⟩
      · have := ih (a + 128) (l - 128) (DwUnsafeReadAddr dr a 128 s).2 (by omega) c hc
        exact ⟨by omega, by omega, this.2.2⟩
    · by_cases h0 : 0 < l
      · rw [readChunks, if_neg h128, if_pos h0] at hc
        simp at hc
        rw [hc]
        exact ⟨le_refl _, by omega, h0⟩
      · rw [readChunks, if_neg h128, if_neg h0] at hc
        simp at hc

/-- Closed form of `DwReadAddr(0, L)` when `32 < DWDRaddr < L`: bulk
reads of `[0,28)` and `[32, DWDRaddr)`, the shadow bytes, the dummy 0,
then the chunk loop from `DWDRaddr+1`. -/
theorem DwReadAddr_char (dr : Nat) (D L : Int) (s : DwState)
    (hD : 32 < D) (hL : D < L) :
    DwReadAddr dr D 0 L s =
      ((0, 28) :: ((32, D - 32) ::
         (readChunks dr (D + 1) (L - D - 1)
           (DwUnsafeReadAddr dr 32 (D - 32) (DwUnsafeReadAddr dr 0 28 s).2).2).1),
       s.inbound.take 28 ++
         ([s.R 28, s.R 29, s.R 30, s.R 31] ++
           ((s.inbound.drop 28).take (D - 32).toNat ++
             (0 :: (readChunks dr (D + 1) (L - D - 1)
               (DwUnsafeReadAddr dr 32 (D - 32) (DwUnsafeReadAddr dr 0 28 s).2).2).2.1))),
       (readChunks dr (D + 1) (L - D - 1)
         (DwUnsafeReadAddr dr 32 (D - 32) (DwUnsafeReadAddr dr 0 28 s).2).2).2.2) := by
  have emin : min L (28 : Int) = 28 := by omega
  have ec := readCache_28 s.R (L - 28) (by omega)
  have e2 : min (L - 28 - 4) (D - 32) = D - 32 := by omega
  have hpos : (0 : Int) < D - 32 := by omega
  have e4 : (32 : Int) + (D - 32) = D := by ring
  have e6 : (0 : Int) < L - 28 - 4 - (D - 32) := by omega
  have e7 : L - 28 - 4 - (D - 32) - 1 = L - D - 1 := by ring
  unfold DwReadAddr
  simp [emin, ec, e2, hpos, e4, e6, e7, DwUnsafeReadAddr_spec, Int.toNat_ofNat]

/-- Closed form of `DwReadAddr(0, L)` in the edge case
`DWDRaddr = 32`: the `[32, DWDRaddr)` bulk read is empty. -/
theorem DwReadAddr_char32 (dr : Nat) (L : Int) (s : DwState) (hL : (32 : Int) < L) :
    DwReadAddr dr 32 0 L s =
      ((0, 28) :: (readChunks dr 33 (L - 33) (DwUnsafeReadAddr dr 0 28 s).2).1,
       s.inbound.take 28 ++
         ([s.R 28, s.R 29, s.R 30, s.R 31] ++
           (0 :: (readChunks dr 33 (L - 33) (DwUnsafeReadAddr dr 0 28 s).2).2.1)),
       (readChunks dr 33 (L - 33) (DwUnsafeReadAddr dr 0 28 s).2).2.2) := by
  have emin : min L (28 : Int) = 28 := by omega
  have ec := readCache_28 s.R (L - 28) (by omega)
  have e2 : min (L - 28 - 4) ((32 : Int) - 32) = 0 := by omega
  have e6 : (0 : Int) < L - 28 - 4 := by omega
  have e7 : L - 28 - 4 - 1 = L - 33 := by ring
  unfold DwReadAddr
  simp [emin, ec, e2, e6, e7, DwUnsafeReadAddr_spec, Int.toNat_ofNat]

/-- C3: `ReadAddr(0, RAMend)` with `31 < DWDRaddr < RAMend` (and enough
inbound data) never issues an `UnsafeReadAddr` whose address range
`[addr, addr+len)` contains 28, 29, 30, 31 or `DWDRaddr`; the result
positions 28..31 hold the cached shadow `R[28..31]` and position
`DWDRaddr` holds the dummy 0. -/
theorem claim_C3 (dr : Nat) (D L : Int) (s : DwState)
    (hD : 31 < D) (hL : D < L) (hinb : L.toNat ≤ s.inbound.length) :
    (∀ c ∈ (DwReadAddr dr D 0 L s).1, ∀ x : Int, c.1 ≤ x → x < c.1 + c.2 →
       x ≠ 28 ∧ x ≠ 29 ∧ x ≠ 30 ∧ x ≠ 31 ∧ x ≠ D) ∧
    (DwReadAddr dr D 0 L s).2.1.getD 28 0 = s.R 28 ∧
    (DwReadAddr dr D 0 L s).2.1.getD 29 0 = s.R 29 ∧
    (DwReadAddr dr D 0 L s).2.1.getD 30 0 = s.R 30 ∧
    (DwReadAddr dr D 0 L s).2.1.getD 31 0 = s.R 31 ∧
    (DwReadAddr dr D 0 L s).2.1.getD D.toNat 1 = 0 := by
  have hlen1 : (s.inbound.take 28).length = 28 := by
    rw [List.length_take]
    omega
  have hgd : ∀ (B : List Nat) (n d : Nat), 28 ≤ n →
      (s.inbound.take 28 ++ B).getD n d = B.getD (n - 28) d := by
    intro B n d h
    rw [List.getD_append_right _ _ _ _ (by omega), hlen1]
  rcases (by omega : D = 32 ∨ 32 < D) with h32 | h32
  · subst h32
    rw [DwReadAddr_char32 dr L s (by omega)]
    refine ⟨?_, ?_, ?_, ?_, ?_, ?_⟩
    · intro c hc x hx1 hx2
      rcases List.mem_cons.mp hc with rfl | hc'
      · simp only at hx1 hx2 ⊢
        omega
      · have hb := readChunks_calls dr ((L - 33).toNat) 33 (L - 33)
          (DwUnsafeReadAddr dr 0 28 s).2 le_rfl c hc'
        omega
    · rw [hgd _ 28 0 le_rfl]
      simp
    · rw [hgd _ 29 0 (by omega)]
      simp
    · rw [hgd _ 30 0 (by omega)]
      simp
    · rw [hgd _ 31 0 (by omega)]
      simp
    · rw [show ((32 : Int)).toNat = 32 from rfl, hgd _ 32 1 (by omega)]
      rw [List.getD_append_right _ _ _ _ (by simp)]
      simp
  · rw [DwReadAddr_char dr D L s h32 hL]
    have hlen3 : ((s.inbound.drop 28).take (D - 32).toNat).length = (D - 32).toNat := by
      rw [List.length_take, List.length_drop]
      omega
    refine ⟨?_, ?_, ?_, ?_, ?_, ?_⟩
    · intro c hc x hx1 hx2
      rcases List.mem_cons.mp hc with rfl | hc'
      · simp only at hx1 hx2 ⊢
        omega
      rcases List.mem_cons.mp hc' with rfl | hc''
      · simp only at hx1 hx2 ⊢
        omega
      · have hb := readChunks_calls dr ((L - D - 1).toNat) (D + 1) (L - D - 1)
          (DwUnsafeReadAddr dr 32 (D - 32) (DwUnsafeReadAddr dr 0 28 s).2).2 le_rfl c hc''
        omega
    · rw [hgd _ 28 0 le_rfl]
      simp
    · rw [hgd _ 29 0 (by omega)]
      simp
    · rw [hgd _ 30 0 (by omega)]
      simp
    · rw [hgd _ 31 0 (by omega)]
      simp
    · rw [hgd _ D.toNat 1 (by omega)]
      rw [List.getD_append_right _ _ _ _ (by simp only [List.length_cons, List.length_nil]; omega)]
      rw [List.getD_append_right _ _ _ _
        (by rw [hlen3]; simp only [List.length_cons, List.length_nil]; omega)]
      rw [hlen3]
      simp
      rw [show D.toNat - 28 - 4 - (D - 32).toNat = 0 from by omega]
      simp

/-- C3 witness. -/
theorem claim_C3_witness :
    (31 : Int) < 70 ∧ (70 : Int) < 200 ∧ (200 : Int).toNat ≤ readExample.inbound.length ∧
    ((∀ c ∈ (DwReadAddr 0x22 70 0 200 readExample).1, ∀ x : Int,
        c.1 ≤ x → x < c.1 + c.2 →
        x ≠ 28 ∧ x ≠ 29 ∧ x ≠ 30 ∧ x ≠ 31 ∧ x ≠ 70) ∧
     (DwReadAddr 0x22 70 0 200 readExample).2.1.getD 28 0 = readExample.R 28 ∧
     (DwReadAddr 0x22 70 0 200 readExample).2.1.getD 29 0 = readExample.R 29 ∧
     (DwReadAddr 0x22 70 0 200 readExample).2.1.getD 30 0 = readExample.R 30 ∧
     (DwReadAddr 0x22 70 0 200 readExample).2.1.getD 31 0 = readExample.R 31 ∧
     (DwReadAddr 0x22 70 0 200 readExample).2.1.getD (70 : Int).toNat 1 = 0) :=
  ⟨by decide, by decide,
   by rw [show readExample.inbound = List.replicate 300 5 from rfl, List.length_replicate]; decide,
   claim_C3 0x22 70 200 readExample (by decide) (by decide)
     (by rw [show readExample.inbound = List.replicate 300 5 from rfl, List.length_replicate]; decide)⟩

end DwPort
